import Mathlib

/-!
Shallow embedding of the storage layer of the repository under
verification: a SQLite-backed history store for downloaded videos
(source files: the video model and the database module).

The SQLite engine is modelled as a pure state (`DbState`) holding the two
tables in row (scan) order, plus the auto-increment counter for the parent
table primary key.  Each SQL statement executed through the pool or a
transaction is a pure function on that state; a transaction operates on a
local copy of the state and only a successful commit publishes it.  Every
awaited fallible statement in the Rust source is a fault point, modelled
by a fault oracle `Nat → Bool` consulted once per statement (and once for
the commit).
-/

namespace YdGui

/-- Mirrors `VideoFormat` from the video module: one downloadable
rendition, all fields stored verbatim as strings. -/
structure VideoFormat where
  container : String
  width : String
  height : String
  fps : String
  deriving DecidableEq, Repr

/-- Mirrors `VideoInfo` from the video module: one history entry with its
list of variants (`video_formats`, skipped by the row mapping). -/
structure VideoInfo where
  video_id : String
  title : String
  author : String
  duration_seconds : String
  thumbnail : Option String
  video_formats : List VideoFormat
  audio_available : Bool
  deriving DecidableEq, Repr

/-- Mirrors `ManagedVideo` from the video module: a fetched record paired
with its row id and two transient runtime fields.  The shared atomic
downloading flag is embedded by its boolean value. -/
structure ManagedVideo where
  id : Int
  video_info : VideoInfo
  content_size : Option Nat
  downloading : Bool
  deriving DecidableEq, Repr

/-- Mirrors `ManagedVideo::new`: fresh transient fields
(`content_size: None`, a new atomic flag initialized to `false`). -/
def ManagedVideo.new (id : Int) (video_info : VideoInfo) : ManagedVideo :=
  { id := id
    video_info := video_info
    content_size := none
    downloading := false }

/-- Mirrors `ManagedVideo::get_info`. -/
def ManagedVideo.get_info (mv : ManagedVideo) : VideoInfo :=
  mv.video_info

/-- One row of the `VIDEO_INFO` table: the columns named by
`QUERY_INSERT_INFO` in the database module (the primary key is kept
separately as the first component of a table entry). -/
structure VideoInfoRow where
  video_id : String
  title : String
  author : String
  duration_seconds : String
  thumbnail : Option String
  audio_available : Bool
  deriving DecidableEq, Repr

/-- One row of the `VIDEO_FORMAT` table: the columns named by
`QUERY_INSERT_FORMAT`, including the parent reference `video_info_id`. -/
structure VideoFormatRow where
  container : String
  width : String
  height : String
  fps : String
  video_info_id : Int
  deriving DecidableEq, Repr

/-- Column projection performed by binding a `VideoInfo` to
`QUERY_INSERT_INFO` (everything except `video_formats`). -/
def VideoInfo.toRow (v : VideoInfo) : VideoInfoRow :=
  { video_id := v.video_id
    title := v.title
    author := v.author
    duration_seconds := v.duration_seconds
    thumbnail := v.thumbnail
    audio_available := v.audio_available }

/-- Mirrors the `FromRow` mapping used by `fetch_one` and `IdAndInfo`:
a `VideoInfo` is rebuilt from the row columns with
`video_formats: Vec::default()`. -/
def VideoInfoRow.toInfo (r : VideoInfoRow) : VideoInfo :=
  { video_id := r.video_id
    title := r.title
    author := r.author
    duration_seconds := r.duration_seconds
    thumbnail := r.thumbnail
    video_formats := []
    audio_available := r.audio_available }

/-- Column projection performed by binding a `VideoFormat` (plus the parent
id) to `QUERY_INSERT_FORMAT`. -/
def VideoFormat.toRow (f : VideoFormat) (video_info_id : Int) : VideoFormatRow :=
  { container := f.container
    width := f.width
    height := f.height
    fps := f.fps
    video_info_id := video_info_id }

/-- Mirrors the `FromRow` derive for `VideoFormat`: the `video_info_id`
column returned by `QUERY_FETCH_ONE_FORMATS` is dropped. -/
def VideoFormatRow.toFormat (r : VideoFormatRow) : VideoFormat :=
  { container := r.container
    width := r.width
    height := r.height
    fps := r.fps }

/-- The observable SQLite database state: both tables in row order.

Modelled from the spec: the migration DDL of the repository is not under
the source directory; per the spec (Schema and Migrations) the parent
table is keyed by an auto-incrementing integer primary key, embedded here
as the monotone counter `next_id` (the id returned by the `RETURNING id`
clause of `QUERY_INSERT_INFO`), and the child table has its own primary
key that is never read by any query, so it is not modelled. -/
structure DbState where
  next_id : Int
  video_info : List (Int × VideoInfoRow)
  video_format : List VideoFormatRow
  deriving DecidableEq, Repr

/-- Error taxonomy of the engine error type as far as this layer
distinguishes it: row-not-found (a one-row fetch on an empty result)
versus any other engine, connection or statement failure. -/
inductive DbError where
  | rowNotFound
  | connection
  deriving DecidableEq, Repr

/-- A fault oracle: whether the k-th awaited statement of one call fails.
`noFault` is the happy path. -/
def noFault : Nat → Bool := fun _ => false

/-- The fault oracle that fails every statement. -/
def failAll : Nat → Bool := fun _ => true

/-- Executing `QUERY_INSERT_INFO` on a (transaction) state: appends the
parent row with the generated id and returns that id (`RETURNING id`). -/
def execInsertInfo (tx : DbState) (v : VideoInfo) : DbState × Int :=
  let id := tx.next_id
  ({ tx with
      next_id := id + 1
      video_info := tx.video_info ++ [(id, v.toRow)] }, id)

/-- Executing `QUERY_INSERT_FORMAT` on a (transaction) state: appends one
child row referencing `video_info_id`. -/
def execInsertFormat (tx : DbState) (f : VideoFormat) (video_info_id : Int) : DbState :=
  { tx with video_format := tx.video_format ++ [f.toRow video_info_id] }

/-- The per-variant loop shared by `insert_video_info` and
`insert_bulk_video_info`: each iteration is one awaited statement (fault
point `k`, incremented per statement).  A fault returns `none` (the
surrounding transaction is dropped). -/
def insertFormats (tx : DbState) (fs : List VideoFormat) (video_info_id : Int)
    (fault : Nat → Bool) (k : Nat) : Option (DbState × Nat) :=
  match fs with
  | [] => some (tx, k)
  | f :: rest =>
    if fault k then none
    else insertFormats (execInsertFormat tx f video_info_id) rest video_info_id fault (k + 1)

/-- Mirrors `Database::insert_video_info`: begin a transaction, insert the
parent row reading back its generated id (fault point 0), insert each
child row (fault points 1 onward), commit (final fault point).  On any
fault the transaction is dropped, so the pool state observed afterwards
is the original `st`. -/
def insert_video_info (st : DbState) (v : VideoInfo) (fault : Nat → Bool) :
    DbState × Except DbError Int :=
  if fault 0 then (st, .error .connection)
  else
    let (tx, id) := execInsertInfo st v
    match insertFormats tx v.video_formats id fault 1 with
    | none => (st, .error .connection)
    | some (tx2, k) =>
      if fault k then (st, .error .connection)
      else (tx2, .ok id)

/-- The per-record loop of `insert_bulk_video_info`: per record, insert
the parent row (one fault point) then its child rows, pushing the
generated id onto `res`. -/
def insertBulkLoop (tx : DbState) (vs : List VideoInfo) (fault : Nat → Bool)
    (k : Nat) (res : List Int) : Option (DbState × Nat × List Int) :=
  match vs with
  | [] => some (tx, k, res)
  | v :: rest =>
    if fault k then none
    else
      let (tx2, id) := execInsertInfo tx v
      match insertFormats tx2 v.video_formats id fault (k + 1) with
      | none => none
      | some (tx3, k2) => insertBulkLoop tx3 rest fault k2 (res ++ [id])

/-- Mirrors `Database::insert_bulk_video_info`: one transaction spanning
the whole batch; the per-record sequence of `insert_video_info` repeated,
collecting the generated ids in order; commit at the end.  Any fault
drops the transaction, leaving `st`. -/
def insert_bulk_video_info (st : DbState) (vs : List VideoInfo) (fault : Nat → Bool) :
    DbState × Except DbError (List Int) :=
  match insertBulkLoop st vs fault 0 [] with
  | none => (st, .error .connection)
  | some (tx, k, res) =>
    if fault k then (st, .error .connection)
    else (tx, .ok res)

/-- Executing `QUERY_FETCH_ONE_INFO` with one-row fetch semantics: the
first row of the parent table whose `id` column equals the bound id (an
empty result becomes `RowNotFound` in `fetch_one` below). -/
def fetchOneInfoQuery (st : DbState) (id : Int) : Option VideoInfoRow :=
  (st.video_info.find? (fun r => decide (r.1 = id))).map (fun r => r.2)

/-- Executing `QUERY_FETCH_ONE_FORMATS` with fetch-all semantics: every
child row whose `video_info_id` equals the bound id, in scan order,
mapped through the `FromRow` derive for `VideoFormat`. -/
def fetchOneFormatsQuery (st : DbState) (id : Int) : List VideoFormat :=
  (st.video_format.filter (fun r => decide (r.video_info_id = id))).map VideoFormatRow.toFormat

/-- Mirrors `Database::fetch_one`: read the parent row (`RowNotFound` if
absent), read all child rows, assemble a `ManagedVideo::new`. -/
def fetch_one (st : DbState) (id : Int) : Except DbError ManagedVideo :=
  match fetchOneInfoQuery st id with
  | none => .error .rowNotFound
  | some row =>
    .ok (ManagedVideo.new id { row.toInfo with video_formats := fetchOneFormatsQuery st id })

/-- Mirrors `FetchOrd` from the database module. -/
inductive FetchOrd where
  | GEQandASC
  | LEQandDESC
  deriving DecidableEq, Repr

/-- Executing `QUERY_FETCH_CHUNK_INFO_GEQ`: rows with id at least the
bound, ordered by id ascending, limited to `num_entries`. -/
def QUERY_FETCH_CHUNK_INFO_GEQ (st : DbState) (starting_id : Int) (num_entries : Nat) :
    List (Int × VideoInfoRow) :=
  (List.insertionSort (fun a b => a.1 ≤ b.1)
    (st.video_info.filter (fun r => decide (starting_id ≤ r.1)))).take num_entries

/-- Executing `QUERY_FETCH_CHUNK_INFO_LEQ`: rows with id at most the
bound, ordered by id descending, limited to `num_entries`. -/
def QUERY_FETCH_CHUNK_INFO_LEQ (st : DbState) (starting_id : Int) (num_entries : Nat) :
    List (Int × VideoInfoRow) :=
  (List.insertionSort (fun a b => b.1 ≤ a.1)
    (st.video_info.filter (fun r => decide (r.1 ≤ starting_id)))).take num_entries

/-- The per-row loop of the chunk fetches: fetch the child variants of
each returned row and assemble a `ManagedVideo::new`. -/
def assembleChunk (st : DbState) (rows : List (Int × VideoInfoRow)) : List ManagedVideo :=
  rows.map (fun r =>
    ManagedVideo.new r.1 { r.2.toInfo with video_formats := fetchOneFormatsQuery st r.1 })

/-- Mirrors `Database::fetch_chunk_of`: run the chunk query selected by
`ord`, then one child read per returned row. -/
def fetch_chunk_of (st : DbState) (starting_id : Int) (num_entries : Nat) (ord : FetchOrd) :
    List ManagedVideo :=
  assembleChunk st
    (match ord with
     | .GEQandASC => QUERY_FETCH_CHUNK_INFO_GEQ st starting_id num_entries
     | .LEQandDESC => QUERY_FETCH_CHUNK_INFO_LEQ st starting_id num_entries)

/-- Mirrors `Database::fetch_chunk`: default `num_entries` of 20. -/
def fetch_chunk (st : DbState) (starting_id : Int) (ord : FetchOrd) : List ManagedVideo :=
  fetch_chunk_of st starting_id 20 ord

/-- Mirrors `Database::fetch_first_chunk_from_top`. -/
def fetch_first_chunk_from_top (st : DbState) : List ManagedVideo :=
  fetch_chunk st 1 .GEQandASC

/-- Mirrors `Database::fetch_first_chunk_from_bottom`: a dedicated
unbounded query ordered by id descending with limit 20, then the same
per-row child read. -/
def fetch_first_chunk_from_bottom (st : DbState) : List ManagedVideo :=
  assembleChunk st
    ((List.insertionSort (fun a b => b.1 ≤ a.1) st.video_info).take 20)

/-- Mirrors `Database::delete_video_info`: delete the parent rows whose id
matches, returning the affected-row count. -/
def delete_video_info (st : DbState) (id : Int) : DbState × Nat :=
  ({ st with video_info := st.video_info.filter (fun r => decide (r.1 ≠ id)) },
   st.video_info.countP (fun r => decide (r.1 = id)))

/-- Mirrors `Database::delete_all`: delete every parent row, returning the
affected-row count. -/
def delete_all (st : DbState) : DbState × Nat :=
  ({ st with video_info := [] }, st.video_info.length)

/-- Well-formedness of a reachable database state: every stored id and
every child parent-reference was generated before the current counter
value, and parent ids (primary keys) are pairwise distinct. -/
def DbState.WF (st : DbState) : Prop :=
  (∀ r ∈ st.video_info, r.1 < st.next_id) ∧
  (∀ f ∈ st.video_format, f.video_info_id < st.next_id) ∧
  (st.video_info.map (fun r => r.1)).Nodup

instance (st : DbState) : Decidable st.WF := by
  unfold DbState.WF
  infer_instance

/-- The parent rows that satisfy the id bound of a chunk query, in scan
order (specification helper for the pagination theorems). -/
def qualifying (st : DbState) (starting_id : Int) : FetchOrd → List (Int × VideoInfoRow)
  | .GEQandASC => st.video_info.filter (fun r => decide (starting_id ≤ r.1))
  | .LEQandDESC => st.video_info.filter (fun r => decide (r.1 ≤ starting_id))

/-- The ids a bulk insert generates: `n` consecutive ids starting at the
current counter value. -/
def bulkIds (c : Int) (n : Nat) : List Int :=
  (List.range n).map (fun i : Nat => c + (i : Int))

/-- A sample parent row used by concrete witnesses. -/
def mkRow (s : String) : VideoInfoRow :=
  { video_id := s
    title := s
    author := s
    duration_seconds := s
    thumbnail := none
    audio_available := true }

/-- A concrete store holding exactly the parent rows with ids 1 to 5. -/
def st5 : DbState :=
  { next_id := 6
    video_info := [(1, mkRow "a"), (2, mkRow "b"), (3, mkRow "c"), (4, mkRow "d"), (5, mkRow "e")]
    video_format := [] }

/-- The freshly migrated empty store. -/
def emptyDb : DbState :=
  { next_id := 1, video_info := [], video_format := [] }

/-- A sample variant used by concrete witnesses. -/
def exFormat1 : VideoFormat :=
  { container := "webm", width := "640", height := "480", fps := "30" }

/-- A second sample variant used by concrete witnesses. -/
def exFormat2 : VideoFormat :=
  { container := "mp4", width := "1280", height := "720", fps := "60" }

/-- A sample record with two variants used by concrete witnesses. -/
def exVideo : VideoInfo :=
  { video_id := "id1"
    title := "Video 1"
    author := "Author 1"
    duration_seconds := "1"
    thumbnail := none
    video_formats := [exFormat1, exFormat2]
    audio_available := true }

/-- With no faults, the variant-insertion loop appends exactly the bound
rows and advances the fault counter by the number of variants. -/
theorem insertFormats_noFault (fs : List VideoFormat) (id : Int) :
    ∀ (tx : DbState) (k : Nat),
      insertFormats tx fs id noFault k =
        some ({ tx with video_format := tx.video_format ++ fs.map (fun f => f.toRow id) },
              k + fs.length) := by
  induction fs with
  | nil => intro tx k; simp [insertFormats]
  | cons f rest ih =>
    intro tx k
    simp only [insertFormats, noFault, Bool.false_eq_true, if_false, ih, execInsertFormat,
      List.map_cons, List.length_cons, List.append_assoc, List.singleton_append]
    have : k + 1 + rest.length = k + (rest.length + 1) := by omega
    rw [this]

/-- With no faults, a single insert commits the parent row, its variant
rows, and returns the generated id. -/
theorem insert_video_info_noFault (st : DbState) (v : VideoInfo) :
    insert_video_info st v noFault =
      ({ next_id := st.next_id + 1
         video_info := st.video_info ++ [(st.next_id, v.toRow)]
         video_format := st.video_format ++ v.video_formats.map (fun f => f.toRow st.next_id) },
       .ok st.next_id) := by
  simp only [insert_video_info, noFault, Bool.false_eq_true, if_false, execInsertInfo,
    insertFormats_noFault]

/-- Fetching the freshly generated id after a fault-free insert on a
well-formed store returns exactly the inserted record. -/
theorem fetch_one_after_insert (st : DbState) (v : VideoInfo) (h : st.WF) :
    fetch_one (insert_video_info st v noFault).1 st.next_id =
      Except.ok (ManagedVideo.new st.next_id v) := by
  obtain ⟨h1, h2, h3⟩ := h
  rw [insert_video_info_noFault]
  have hfind : (st.video_info ++ [(st.next_id, v.toRow)]).find?
      (fun r => decide (r.1 = st.next_id)) = some (st.next_id, v.toRow) := by
    rw [List.find?_append]
    have hnone : st.video_info.find? (fun r => decide (r.1 = st.next_id)) = none := by
      rw [List.find?_eq_none]
      intro r hr
      have := h1 r hr
      simp only [decide_eq_true_eq]
      omega
    rw [hnone]
    simp [List.find?]
  have hfmt : (st.video_format ++ v.video_formats.map (fun f => f.toRow st.next_id)).filter
      (fun r => decide (r.video_info_id = st.next_id)) =
      v.video_formats.map (fun f => f.toRow st.next_id) := by
    rw [List.filter_append]
    have hempty : st.video_format.filter (fun r => decide (r.video_info_id = st.next_id)) = [] := by
      rw [List.filter_eq_nil_iff]
      intro f hf
      have := h2 f hf
      simp only [decide_eq_true_eq]
      omega
    have hall : (v.video_formats.map (fun f => f.toRow st.next_id)).filter
        (fun r => decide (r.video_info_id = st.next_id)) =
        v.video_formats.map (fun f => f.toRow st.next_id) := by
      rw [List.filter_eq_self]
      intro a ha
      simp only [List.mem_map] at ha
      obtain ⟨f, _, rfl⟩ := ha
      simp [VideoFormat.toRow]
    rw [hempty, hall, List.nil_append]
  simp only [fetch_one, fetchOneInfoQuery, fetchOneFormatsQuery, hfind, hfmt, Option.map_some]
  simp only [List.map_map]
  have hmapid : v.video_formats.map (VideoFormatRow.toFormat ∘ fun f => f.toRow st.next_id) =
      v.video_formats := by
    apply List.map_id''
    intro f
    rfl
  rw [hmapid]
  rfl

/-- A single insert either leaves the pool state untouched or succeeds
with an id. -/
theorem insert_video_info_cases (st : DbState) (v : VideoInfo) (fault : Nat → Bool) :
    (insert_video_info st v fault).1 = st ∨
    ∃ id, (insert_video_info st v fault).2 = Except.ok id := by
  unfold insert_video_info
  split
  · exact Or.inl rfl
  · split
    · split
      · exact Or.inl rfl
      · split
        · exact Or.inl rfl
        · exact Or.inr ⟨_, rfl⟩

/-- A bulk insert either leaves the pool state untouched or succeeds with
a list of ids. -/
theorem insert_bulk_cases (st : DbState) (vs : List VideoInfo) (fault : Nat → Bool) :
    (insert_bulk_video_info st vs fault).1 = st ∨
    ∃ ids, (insert_bulk_video_info st vs fault).2 = Except.ok ids := by
  unfold insert_bulk_video_info
  split
  · exact Or.inl rfl
  · split
    · exact Or.inl rfl
    · exact Or.inr ⟨_, rfl⟩

/-- A failing single insert rolls the pool state back to the original. -/
theorem insert_video_info_fail (st : DbState) (v : VideoInfo) (fault : Nat → Bool) (e : DbError)
    (h : (insert_video_info st v fault).2 = .error e) :
    (insert_video_info st v fault).1 = st := by
  rcases insert_video_info_cases st v fault with h1 | ⟨id, h2⟩
  · exact h1
  · rw [h2] at h; exact absurd h (by simp)

/-- A failing bulk insert rolls the pool state back to the original. -/
theorem insert_bulk_fail (st : DbState) (vs : List VideoInfo) (fault : Nat → Bool) (e : DbError)
    (h : (insert_bulk_video_info st vs fault).2 = .error e) :
    (insert_bulk_video_info st vs fault).1 = st := by
  rcases insert_bulk_cases st vs fault with h1 | ⟨ids, h2⟩
  · exact h1
  · rw [h2] at h; exact absurd h (by simp)

/-- Unfolding one step of the consecutive-id list. -/
theorem bulkIds_succ (c : Int) (n : Nat) :
    bulkIds c (n + 1) = c :: bulkIds (c + 1) n := by
  unfold bulkIds
  rw [List.range_succ_eq_map, List.map_cons, List.map_map]
  refine congrArg₂ _ (by simp) (List.map_congr_left ?_)
  intro i _
  simp only [Function.comp_apply, Nat.succ_eq_add_one]
  push_cast
  ring

/-- With no faults, the bulk-insert loop appends the parent rows in input
order, each paired with the next consecutive generated id. -/
theorem insertBulkLoop_noFault (vs : List VideoInfo) :
    ∀ (tx : DbState) (k : Nat) (res : List Int),
      ∃ tx2 k2,
        insertBulkLoop tx vs noFault k res =
          some (tx2, k2, res ++ bulkIds tx.next_id vs.length) ∧
        tx2.video_info = tx.video_info ++
          (bulkIds tx.next_id vs.length).zip (vs.map VideoInfo.toRow) ∧
        tx2.next_id = tx.next_id + vs.length := by
  induction vs with
  | nil => intro tx k res; exact ⟨tx, k, by simp [insertBulkLoop, bulkIds]⟩
  | cons v rest ih =>
    intro tx k res
    obtain ⟨tx2, k2, heq, hinfo, hnext⟩ :=
      ih { next_id := tx.next_id + 1
           video_info := tx.video_info ++ [(tx.next_id, v.toRow)]
           video_format := tx.video_format ++
             v.video_formats.map (fun f => f.toRow tx.next_id) }
        (k + 1 + v.video_formats.length) (res ++ [tx.next_id])
    have hstep : insertBulkLoop tx (v :: rest) noFault k res =
        insertBulkLoop
          { next_id := tx.next_id + 1
            video_info := tx.video_info ++ [(tx.next_id, v.toRow)]
            video_format := tx.video_format ++
              v.video_formats.map (fun f => f.toRow tx.next_id) }
          rest noFault (k + 1 + v.video_formats.length) (res ++ [tx.next_id]) := by
      simp only [insertBulkLoop, noFault, Bool.false_eq_true, if_false, execInsertInfo,
        insertFormats_noFault]
    refine ⟨tx2, k2, ?_, ?_, ?_⟩
    · rw [hstep, heq]
      simp only [List.length_cons, bulkIds_succ, List.append_assoc, List.singleton_append]
    · rw [hinfo]
      simp only [List.length_cons, bulkIds_succ, List.map_cons, List.zip_cons_cons,
        List.append_assoc, List.singleton_append]
    · rw [hnext]
      simp only [List.length_cons]
      push_cast
      ring

/-- In a list whose keys are pairwise distinct, a key that occurs is
counted exactly once. -/
theorem countP_eq_one_of_nodup_keys {α : Type} (f : α → Int) (id : Int) :
    ∀ (l : List α), (l.map f).Nodup → (∃ a ∈ l, f a = id) →
      l.countP (fun r => decide (f r = id)) = 1 := by
  intro l
  induction l with
  | nil => intro _ h; simp at h
  | cons b l' ih =>
    intro hnd hex
    rw [List.map_cons, List.nodup_cons] at hnd
    obtain ⟨hb, hnd'⟩ := hnd
    by_cases hfb : f b = id
    · have hzero : l'.countP (fun r => decide (f r = id)) = 0 := by
        rw [List.countP_eq_zero]
        intro a ha
        simp only [decide_eq_true_eq]
        intro hfa
        apply hb
        rw [hfb, ← hfa]
        exact List.mem_map_of_mem f ha
      rw [List.countP_cons]
      simp [hfb, hzero]
    · obtain ⟨a, ha, hfa⟩ := hex
      rw [List.mem_cons] at ha
      rcases ha with rfl | ha'
      · exact absurd hfa hfb
      · rw [List.countP_cons]
        simp only [decide_eq_true_eq, hfb, if_false, Nat.add_zero]
        exact ih hnd' ⟨a, ha', hfa⟩

/-- The ids of an assembled chunk are the ids of the underlying rows. -/
theorem assembleChunk_map_id (st : DbState) (rows : List (Int × VideoInfoRow)) :
    (assembleChunk st rows).map (fun mv => mv.id) = rows.map (fun r => r.1) := by
  unfold assembleChunk
  rw [List.map_map]
  rfl

/-- C1: for every valid record and every well-formed store, a fault-free
insert followed by a fetch of the returned id yields a record whose
scalar fields equal the original and whose variant list is a permutation
(hence multiset-equal) of the original variant list. -/
theorem insert_fetch_round_trip (st : DbState) (v : VideoInfo) (h : st.WF) :
    ∃ st2 id mv,
      insert_video_info st v noFault = (st2, Except.ok id) ∧
      fetch_one st2 id = Except.ok mv ∧
      mv.get_info.video_id = v.video_id ∧
      mv.get_info.title = v.title ∧
      mv.get_info.author = v.author ∧
      mv.get_info.duration_seconds = v.duration_seconds ∧
      mv.get_info.thumbnail = v.thumbnail ∧
      mv.get_info.audio_available = v.audio_available ∧
      mv.get_info.video_formats.Perm v.video_formats := by
  refine ⟨(insert_video_info st v noFault).1, st.next_id, ManagedVideo.new st.next_id v, ?_,
    fetch_one_after_insert st v h, rfl, rfl, rfl, rfl, rfl, rfl, List.Perm.refl _⟩
  rw [insert_video_info_noFault]

/-- Witness for C1: the round trip at the empty store and a concrete
two-variant record. -/
theorem insert_fetch_round_trip_witness :
    ∃ st2 id mv,
      insert_video_info emptyDb exVideo noFault = (st2, Except.ok id) ∧
      fetch_one st2 id = Except.ok mv ∧
      mv.get_info.video_id = exVideo.video_id ∧
      mv.get_info.title = exVideo.title ∧
      mv.get_info.author = exVideo.author ∧
      mv.get_info.duration_seconds = exVideo.duration_seconds ∧
      mv.get_info.thumbnail = exVideo.thumbnail ∧
      mv.get_info.audio_available = exVideo.audio_available ∧
      mv.get_info.video_formats.Perm exVideo.video_formats :=
  insert_fetch_round_trip emptyDb exVideo (by decide)

/-- C2: on a store containing exactly the parent rows with ids 1 to 5
(arbitrary contents, counter and child table), the six documented chunk
fetches return exactly the documented id sequences. -/
theorem pagination_example (nid : Int) (r1 r2 r3 r4 r5 : VideoInfoRow)
    (fmts : List VideoFormatRow) :
    let st : DbState :=
      { next_id := nid
        video_info := [(1, r1), (2, r2), (3, r3), (4, r4), (5, r5)]
        video_format := fmts }
    ((fetch_chunk_of st 1 5 .GEQandASC).map (fun mv => mv.id) = [1, 2, 3, 4, 5]) ∧
    ((fetch_chunk_of st 1 5 .LEQandDESC).map (fun mv => mv.id) = [1]) ∧
    ((fetch_chunk_of st 5 5 .GEQandASC).map (fun mv => mv.id) = [5]) ∧
    ((fetch_chunk_of st 5 5 .LEQandDESC).map (fun mv => mv.id) = [5, 4, 3, 2, 1]) ∧
    ((fetch_chunk_of st 3 5 .GEQandASC).map (fun mv => mv.id) = [3, 4, 5]) ∧
    ((fetch_chunk_of st 3 5 .LEQandDESC).map (fun mv => mv.id) = [3, 2, 1]) := by
  refine ⟨?_, ?_, ?_, ?_, ?_, ?_⟩ <;>
    simp +decide [fetch_chunk_of, QUERY_FETCH_CHUNK_INFO_GEQ, QUERY_FETCH_CHUNK_INFO_LEQ,
      assembleChunk, List.insertionSort, List.orderedInsert, ManagedVideo.new,
      List.filter, List.take]

/-- C3: for every store, input and fault pattern, a failing single or
bulk insert leaves the observable store state exactly as it was (the
whole transaction, parent and child writes alike, is rolled back). -/
theorem insert_failure_atomic (st : DbState) (v : VideoInfo) (vs : List VideoInfo)
    (fa fb : Nat → Bool) (e1 e2 : DbError)
    (h1 : (insert_video_info st v fa).2 = .error e1)
    (h2 : (insert_bulk_video_info st vs fb).2 = .error e2) :
    (insert_video_info st v fa).1 = st ∧ (insert_bulk_video_info st vs fb).1 = st :=
  ⟨insert_video_info_fail st v fa e1 h1, insert_bulk_fail st vs fb e2 h2⟩

/-- Witness for C3: an all-failing oracle aborts both inserts on the empty
store and leaves it unchanged. -/
theorem insert_failure_atomic_witness :
    (insert_video_info emptyDb exVideo failAll).1 = emptyDb ∧
    (insert_bulk_video_info emptyDb [exVideo] failAll).1 = emptyDb :=
  insert_failure_atomic emptyDb exVideo [exVideo] failAll failAll .connection .connection rfl rfl

/-- C4: a fault-free bulk insert succeeds, returns one generated id per
input record (consecutive ids in insertion order), and appends the parent
rows positionally paired with those ids. -/
theorem insert_bulk_noFault (st : DbState) (vs : List VideoInfo) :
    ∃ st2 ids, insert_bulk_video_info st vs noFault = (st2, Except.ok ids) ∧
      ids.length = vs.length ∧
      ids = bulkIds st.next_id vs.length ∧
      st2.video_info = st.video_info ++ ids.zip (vs.map VideoInfo.toRow) := by
  obtain ⟨tx2, k2, heq, hinfo, hnext⟩ := insertBulkLoop_noFault vs st 0 []
  refine ⟨tx2, bulkIds st.next_id vs.length, ?_, ?_, rfl, ?_⟩
  · unfold insert_bulk_video_info
    rw [heq]
    simp [noFault]
  · unfold bulkIds
    simp
  · rw [hinfo]

/-- C5: deleting a missing id is a successful no-op returning 0 with the
store unchanged; deleting a present id returns 1 and makes the row
unfetchable (a subsequent fetch reports not-found). -/
theorem delete_spec (st : DbState) (id : Int) (h : st.WF) :
    ((∀ r ∈ st.video_info, r.1 ≠ id) → delete_video_info st id = (st, 0)) ∧
    ((∃ r ∈ st.video_info, r.1 = id) →
      (delete_video_info st id).2 = 1 ∧
      fetch_one (delete_video_info st id).1 id = .error .rowNotFound) := by
  obtain ⟨h1, h2, h3⟩ := h
  constructor
  · intro hnone
    unfold delete_video_info
    have hfil : st.video_info.filter (fun r => decide (r.1 ≠ id)) = st.video_info := by
      rw [List.filter_eq_self]
      intro a ha
      simp [hnone a ha]
    have hcnt : st.video_info.countP (fun r => decide (r.1 = id)) = 0 := by
      rw [List.countP_eq_zero]
      intro a ha
      simp [hnone a ha]
    rw [hfil, hcnt]
  · intro hex
    constructor
    · exact countP_eq_one_of_nodup_keys (fun r => r.1) id st.video_info h3 hex
    · have hfind : ((delete_video_info st id).1.video_info).find?
          (fun r => decide (r.1 = id)) = none := by
        show (st.video_info.filter (fun r => decide (r.1 ≠ id))).find?
          (fun r => decide (r.1 = id)) = none
        rw [List.find?_eq_none]
        intro x hx
        rw [List.mem_filter] at hx
        simp only [decide_eq_true_eq] at hx ⊢
        exact hx.2
      unfold fetch_one fetchOneInfoQuery
      rw [hfind]
      rfl

/-- Witness for C5: on the five-row store, deleting the missing id 9 is a
no-op returning 0, and deleting id 3 returns 1 and makes 3 unfetchable. -/
theorem delete_spec_witness :
    delete_video_info st5 9 = (st5, 0) ∧
    (delete_video_info st5 3).2 = 1 ∧
    fetch_one (delete_video_info st5 3).1 3 = .error .rowNotFound :=
  ⟨(delete_spec st5 9 (by decide)).1 (by decide),
   ((delete_spec st5 3 (by decide)).2 (by decide)).1,
   ((delete_spec st5 3 (by decide)).2 (by decide)).2⟩

/-- C6: a fetch-by-id fails with the not-found error exactly when no
parent row has that id; when one exists it succeeds, and with no child
rows referencing the id the returned variant list is empty. -/
theorem fetch_one_spec (st : DbState) (id : Int) :
    (fetch_one st id = .error .rowNotFound ↔ ¬ ∃ r ∈ st.video_info, r.1 = id) ∧
    ((∃ r ∈ st.video_info, r.1 = id) →
      ∃ mv, fetch_one st id = .ok mv ∧
        ((∀ f ∈ st.video_format, f.video_info_id ≠ id) → mv.get_info.video_formats = [])) := by
  rcases hfind : st.video_info.find? (fun r => decide (r.1 = id)) with _ | r
  · rw [List.find?_eq_none] at hfind
    have hnone : ¬ ∃ r ∈ st.video_info, r.1 = id := by
      rintro ⟨r, hr, he⟩
      exact hfind r hr (by simp [he])
    constructor
    · constructor
      · intro _
        exact hnone
      · intro _
        unfold fetch_one fetchOneInfoQuery
        rw [List.find?_eq_none.mpr hfind]
        rfl
    · intro hex
      exact absurd hex hnone
  · have hmem := List.mem_of_find?_eq_some hfind
    have hp := List.find?_some hfind
    simp only [decide_eq_true_eq] at hp
    have hok : fetch_one st id =
        .ok (ManagedVideo.new id
          { r.2.toInfo with video_formats := fetchOneFormatsQuery st id }) := by
      unfold fetch_one fetchOneInfoQuery
      rw [hfind]
      rfl
    constructor
    · rw [hok]
      constructor
      · intro hcontra
        exact absurd hcontra (by simp)
      · intro hno
        exact absurd ⟨r, hmem, hp⟩ hno
    · intro _
      refine ⟨_, hok, ?_⟩
      intro hnofmt
      unfold ManagedVideo.get_info fetchOneFormatsQuery
      have : st.video_format.filter (fun f => decide (f.video_info_id = id)) = [] := by
        rw [List.filter_eq_nil_iff]
        intro f hf
        simp [hnofmt f hf]
      simp [this, ManagedVideo.new]

/-- Witness for C6: fetching the present id 3 on the five-row store
succeeds and, the child table being empty, yields no variants. -/
theorem fetch_one_spec_witness :
    ∃ mv, fetch_one st5 3 = .ok mv ∧
      ((∀ f ∈ st5.video_format, f.video_info_id ≠ 3) → mv.get_info.video_formats = []) :=
  (fetch_one_spec st5 3).2 (by decide)

/-- C7: every chunk fetch returns at most `num_entries` records, and when
fewer rows qualify it returns exactly the qualifying rows (no error, no
padding). -/
theorem fetch_chunk_of_spec (st : DbState) (sid : Int) (n : Nat) (ord : FetchOrd) :
    (fetch_chunk_of st sid n ord).length ≤ n ∧
    ((qualifying st sid ord).length < n →
      ((fetch_chunk_of st sid n ord).map (fun mv => mv.id)).Perm
        ((qualifying st sid ord).map (fun r => r.1))) := by
  constructor
  · unfold fetch_chunk_of assembleChunk
    rw [List.length_map]
    cases ord
    · exact List.length_take_le _ _
    · exact List.length_take_le _ _
  · intro hlt
    cases ord
    · simp only [qualifying] at hlt
      have hperm := List.perm_insertionSort (fun a b : Int × VideoInfoRow => a.1 ≤ b.1)
        (st.video_info.filter (fun r => decide (sid ≤ r.1)))
      simp only [fetch_chunk_of, QUERY_FETCH_CHUNK_INFO_GEQ, qualifying]
      rw [List.take_of_length_le (by rw [hperm.length_eq]; omega), assembleChunk_map_id]
      exact hperm.map _
    · simp only [qualifying] at hlt
      have hperm := List.perm_insertionSort (fun a b : Int × VideoInfoRow => b.1 ≤ a.1)
        (st.video_info.filter (fun r => decide (r.1 ≤ sid)))
      simp only [fetch_chunk_of, QUERY_FETCH_CHUNK_INFO_LEQ, qualifying]
      rw [List.take_of_length_le (by rw [hperm.length_eq]; omega), assembleChunk_map_id]
      exact hperm.map _

/-- Witness for C7: on the five-row store a page size of 9 yields a short
page holding exactly the three qualifying rows. -/
theorem fetch_chunk_of_spec_witness :
    (fetch_chunk_of st5 3 9 .GEQandASC).length ≤ 9 ∧
    ((fetch_chunk_of st5 3 9 .GEQandASC).map (fun mv => mv.id)).Perm
      ((qualifying st5 3 .GEQandASC).map (fun r => r.1)) :=
  ⟨(fetch_chunk_of_spec st5 3 9 .GEQandASC).1,
   (fetch_chunk_of_spec st5 3 9 .GEQandASC).2 (by decide)⟩

/-- C8: both delete operations touch only the parent table: the child
table is left entirely unchanged (orphans remain), the single delete
removes exactly the matching parent rows, and the bulk delete empties the
parent table. -/
theorem delete_frame (st : DbState) (id : Int) :
    (delete_video_info st id).1.video_format = st.video_format ∧
    (delete_all st).1.video_format = st.video_format ∧
    (delete_video_info st id).1.video_info =
      st.video_info.filter (fun r => decide (r.1 ≠ id)) ∧
    (delete_all st).1.video_info = [] :=
  ⟨rfl, rfl, rfl, rfl⟩

/-- C9: the from-top entry point equals a forward chunk fetch from id 1
with the default page size 20, and the from-bottom entry point equals a
backward chunk fetch with the default page size 20 from any upper bound
of the stored ids (in particular from the maximal id of a non-empty
store). -/
theorem first_chunk_defaults (st : DbState) (m : Int) (h : ∀ r ∈ st.video_info, r.1 ≤ m) :
    fetch_first_chunk_from_top st = fetch_chunk_of st 1 20 .GEQandASC ∧
    fetch_first_chunk_from_bottom st = fetch_chunk_of st m 20 .LEQandDESC := by
  constructor
  · rfl
  · unfold fetch_first_chunk_from_bottom fetch_chunk_of QUERY_FETCH_CHUNK_INFO_LEQ
    have hfil : st.video_info.filter (fun r => decide (r.1 ≤ m)) = st.video_info := by
      rw [List.filter_eq_self]
      intro a ha
      simp [h a ha]
    rw [hfil]

/-- Witness for C9: the two equivalences at the five-row store with its
maximal id 5. -/
theorem first_chunk_defaults_witness :
    fetch_first_chunk_from_top st5 = fetch_chunk_of st5 1 20 .GEQandASC ∧
    fetch_first_chunk_from_bottom st5 = fetch_chunk_of st5 5 20 .LEQandDESC :=
  first_chunk_defaults st5 5 (by decide)

/-- C10: every record constructed by `ManagedVideo::new` or returned by
any fetch carries freshly initialized transient fields: no byte-size hint
and a downloading flag that is false. -/
theorem fresh_transient_fields (st : DbState) (id sid : Int) (n : Nat) (ord : FetchOrd)
    (v : VideoInfo) :
    ((ManagedVideo.new id v).content_size = none ∧
      (ManagedVideo.new id v).downloading = false) ∧
    (∀ mv, fetch_one st id = .ok mv → mv.content_size = none ∧ mv.downloading = false) ∧
    (∀ mv ∈ fetch_chunk_of st sid n ord, mv.content_size = none ∧ mv.downloading = false) ∧
    (∀ mv ∈ fetch_first_chunk_from_bottom st,
      mv.content_size = none ∧ mv.downloading = false) := by
  refine ⟨⟨rfl, rfl⟩, ?_, ?_, ?_⟩
  · intro mv hmv
    unfold fetch_one at hmv
    rcases hfind : fetchOneInfoQuery st id with _ | row
    · rw [hfind] at hmv
      exact absurd hmv (by simp)
    · rw [hfind] at hmv
      simp only [Except.ok.injEq] at hmv
      rw [← hmv]
      exact ⟨rfl, rfl⟩
  · intro mv hmv
    unfold fetch_chunk_of assembleChunk at hmv
    rw [List.mem_map] at hmv
    obtain ⟨r, _, rfl⟩ := hmv
    exact ⟨rfl, rfl⟩
  · intro mv hmv
    unfold fetch_first_chunk_from_bottom assembleChunk at hmv
    rw [List.mem_map] at hmv
    obtain ⟨r, _, rfl⟩ := hmv
    exact ⟨rfl, rfl⟩

/-- Witness for C10: the record fetched for id 1 from the five-row store
has no byte-size hint and is not downloading. -/
theorem fresh_transient_fields_witness :
    (ManagedVideo.new 1 (mkRow "a").toInfo).content_size = none ∧
    (ManagedVideo.new 1 (mkRow "a").toInfo).downloading = false :=
  (fresh_transient_fields st5 1 1 5 .GEQandASC (mkRow "a").toInfo).2.1
    (ManagedVideo.new 1 (mkRow "a").toInfo) (by rfl)

end YdGui
